import Mathlib

/-!
Shallow embedding of `src/main.py` (class `DependencyAnalyzer`): a recursive
dependency-graph builder over a package registry, with a depth guard, a
path-based cycle guard and a "already in the graph" memoization guard.

Python dicts are modelled as ordered association lists (`List (String × α)`):
insertion order is observable in the source (first-visit order of the graph,
iteration order of `versions`), so lists are the faithful model.  `dict.get`
with a default is modelled by `lookupKey` + `Option.getD`, and dict item
assignment `d[k] = v` by `setKey` (update in place if the key exists,
append otherwise).  Exceptions (`raise ValueError`, propagated uncaught
through `build_dependency_graph` up to `run_analysis`) are modelled with
`Except String`.
-/

/-- First-match lookup in an ordered association list; models `k in d` /
`d[k]` / `d.get(k, default)` on a Python dict (whose keys are unique). -/
def lookupKey {α : Type} : List (String × α) → String → Option α
  | [], _ => none
  | (k, v) :: rest, key => if k = key then some v else lookupKey rest key

/-- Models Python dict assignment `d[k] = v`: replace in place when the key
is present, append at the end otherwise. -/
def setKey {α : Type} : List (String × α) → String → α → List (String × α)
  | [], key, v => [(key, v)]
  | (k, w) :: rest, key, v =>
    if k = key then (key, v) :: rest else (k, w) :: setKey rest key v

/-- The keys of an association list, in order; models `list(d.keys())`. -/
def keysOf {α : Type} (l : List (String × α)) : List String := l.map Prod.fst

/-- A package's metadata record, as returned for one resolved version.
`dependencies = none` models a JSON/dict record without a `dependencies`
key (`info.get('dependencies', {})` then yields the empty mapping). -/
structure PackageMetadata where
  dependencies : Option (List (String × String))
deriving DecidableEq, Repr

/-- The answer of `requests.get(f"{repository_url}/{package_name}")`:
the HTTP status code and the `versions` mapping of the decoded JSON body
(`package_data.get('versions', {})`; an absent `versions` key is `[]`). -/
structure RegistryResponse where
  status_code : Nat
  versions : List (String × PackageMetadata)
deriving DecidableEq, Repr

/-- The operating mode of the analyzer (`config['mode']`), bundled with the
external data it reads: the parsed fixture file in test mode, or the
response of the registry for each package name in live mode. -/
inductive Mode where
  | test (fixture : List (String × PackageMetadata))
  | live (respond : String → RegistryResponse)

/-- The message of the `ValueError` raised by `get_package_info` in live
mode: `f"Не удалось получить информацию о пакете {package_name}"`. -/
def resolutionMsg (package_name : String) : String :=
  "Не удалось получить информацию о пакете " ++ package_name

/-- `DependencyAnalyzer.get_package_info` (src/main.py lines 35-59).
Test mode: `test_data.get(package_name, {})`, never an error (the fixture
file is assumed readable; a missing file is outside the claims).  Live
mode: on HTTP 200, return `versions[version]` when present, otherwise fall
back to the first version key — but only when that first key is a truthy
(non-empty) string, exactly as `if first_version:` does; every other path
falls through to `raise ValueError(...)`. -/
def get_package_info (mode : Mode) (package_name version : String) :
    Except String PackageMetadata :=
  match mode with
  | Mode.test fixture =>
    Except.ok ((lookupKey fixture package_name).getD { dependencies := none })
  | Mode.live respond =>
    let response := respond package_name
    if response.status_code = 200 then
      match lookupKey response.versions version with
      | some info => Except.ok info
      | none =>
        -- first_version = list(versions.keys())[0] if versions else None
        -- if first_version: return versions[first_version]
        -- (looking up the first key of a dict returns the first value)
        match response.versions with
        | [] => Except.error (resolutionMsg package_name)
        | (first_version, info0) :: _ =>
          if first_version = "" then Except.error (resolutionMsg package_name)
          else Except.ok info0
    else Except.error (resolutionMsg package_name)

/-- `DependencyAnalyzer.get_direct_dependencies` (lines 61-71):
`get_package_info(...).get('dependencies', {})` (printing elided). -/
def get_direct_dependencies (mode : Mode) (package_name version : String) :
    Except String (List (String × String)) :=
  (get_package_info mode package_name version).map
    (fun info => info.dependencies.getD [])

/-- The mutable state of one `DependencyAnalyzer` run, made explicit:
the accumulated `self.dependency_graph`, plus two observation logs —
the successive arguments of `get_direct_dependencies` calls (`fetch_log`)
and the chains printed by the cycle guard (`cycle_log`). -/
structure AnalyzerState where
  dependency_graph : List (String × List (String × String))
  fetch_log : List String
  cycle_log : List (List String)
deriving DecidableEq, Repr

/-- The keys of the accumulated dependency graph, in discovery order. -/
def graphKeys (st : AnalyzerState) : List String :=
  keysOf st.dependency_graph

/-- The state of a freshly constructed analyzer: empty graph, no fetches,
no cycle reports. -/
def initialState : AnalyzerState := ⟨[], [], []⟩

mutual

/-- `DependencyAnalyzer.build_dependency_graph` (lines 73-96), with the
instance state passed explicitly.  Guards in source order: depth guard
(`depth > max_depth`), cycle guard (`package_name in path`), then fetch,
record, and the loop over the fetched dependencies.  Termination is by the
depth guard alone: the measure is `max_depth + 2 - depth`, which shrinks at
every recursive descent because a descent only happens from a node with
`depth ≤ max_depth`. -/
def build_dependency_graph (mode : Mode) (max_depth : Nat)
    (package_name version : String) (depth : Nat) (path : List String)
    (st : AnalyzerState) : Except String AnalyzerState :=
  if _h : depth > max_depth then Except.ok st
  else if package_name ∈ path then
    Except.ok { st with cycle_log := st.cycle_log ++ [path ++ [package_name]] }
  else
    match get_direct_dependencies mode package_name version with
    | Except.error e => Except.error e
    | Except.ok dependencies =>
      build_children mode max_depth dependencies (depth + 1)
        (path ++ [package_name])
        { dependency_graph := setKey st.dependency_graph package_name dependencies
          fetch_log := st.fetch_log ++ [package_name]
          cycle_log := st.cycle_log }
termination_by (max_depth + 2 - depth, 0)

/-- The `for dep_name, dep_version in dependencies.items():` loop of
`build_dependency_graph` (lines 94-96): recurse into a dependency only when
it is not yet a key of the shared graph. -/
def build_children (mode : Mode) (max_depth : Nat)
    (deps : List (String × String)) (depth : Nat) (path : List String)
    (st : AnalyzerState) : Except String AnalyzerState :=
  match deps with
  | [] => Except.ok st
  | (dep_name, dep_version) :: rest =>
    if dep_name ∈ graphKeys st then
      build_children mode max_depth rest depth path st
    else
      match build_dependency_graph mode max_depth dep_name dep_version depth
          path st with
      | Except.error e => Except.error e
      | Except.ok st2 => build_children mode max_depth rest depth path st2
termination_by (max_depth + 2 - depth, deps.length + 1)

end

/-- `DependencyAnalyzer.run_analysis` (lines 98-111): start the traversal
from the configured root at depth 0 with an empty ancestor path and a fresh
analyzer state (printing elided; the produced graph is the result). -/
def run_analysis (mode : Mode) (max_depth : Nat)
    (package_name version : String) : Except String AnalyzerState :=
  build_dependency_graph mode max_depth package_name version 0 [] initialState

/-- The dependency loop abstracted over the recursive step, used by the
fuel-indexed engine below; structurally identical to `build_children`. -/
def runChildren (step : String → String → AnalyzerState →
    Option (Except String AnalyzerState)) :
    List (String × String) → AnalyzerState →
    Option (Except String AnalyzerState)
  | [], st => some (Except.ok st)
  | (dep_name, dep_version) :: rest, st =>
    if dep_name ∈ graphKeys st then runChildren step rest st
    else
      match step dep_name dep_version st with
      | none => none
      | some (Except.error e) => some (Except.error e)
      | some (Except.ok st2) => runChildren step rest st2

/-- A fuel-indexed approximation of `build_dependency_graph`: `fuel` bounds
how many further levels of recursive descent are allowed, and `none` means
the bound was hit.  Structural recursion on `fuel`, so concrete runs reduce
inside the kernel; `buildFuel_eq_build` below shows that
`fuel = max_depth + 1 - depth` already never hits the bound. -/
def buildFuel (mode : Mode) (max_depth : Nat) (fuel : Nat)
    (package_name version : String) (depth : Nat) (path : List String)
    (st : AnalyzerState) : Option (Except String AnalyzerState) :=
  if depth > max_depth then some (Except.ok st)
  else if package_name ∈ path then
    some (Except.ok
      { st with cycle_log := st.cycle_log ++ [path ++ [package_name]] })
  else
    match get_direct_dependencies mode package_name version with
    | Except.error e => some (Except.error e)
    | Except.ok dependencies =>
      match fuel with
      | 0 => none
      | fuel' + 1 =>
        runChildren
          (fun n v s =>
            buildFuel mode max_depth fuel' n v (depth + 1)
              (path ++ [package_name]) s)
          dependencies
          { dependency_graph := setKey st.dependency_graph package_name dependencies
            fetch_log := st.fetch_log ++ [package_name]
            cycle_log := st.cycle_log }

deriving instance DecidableEq for Except

/-! ### Concrete registries used by individual claims -/

/-- Test fixture forming the linear chain A → B → C → D, D without
dependencies. -/
def chainFixture : List (String × PackageMetadata) :=
  [("A", { dependencies := some [("B", "1.0")] }),
   ("B", { dependencies := some [("C", "1.0")] }),
   ("C", { dependencies := some [("D", "1.0")] }),
   ("D", { dependencies := some [] })]

def chainMode : Mode := Mode.test chainFixture

/-- Test fixture with the two-cycle A ↔ B. -/
def cycleFixture : List (String × PackageMetadata) :=
  [("A", { dependencies := some [("B", "1.0")] }),
   ("B", { dependencies := some [("A", "1.0")] })]

def cycleMode : Mode := Mode.test cycleFixture

/-- The end-to-end fixture of the spec: B is reachable both directly from A
and through C. -/
def e2eFixture : List (String × PackageMetadata) :=
  [("A", { dependencies := some [("B", "1.0"), ("C", "1.0")] }),
   ("B", { dependencies := some [] }),
   ("C", { dependencies := some [("B", "1.0")] })]

def e2eMode : Mode := Mode.test e2eFixture

/-- A live registry whose only version key is the empty string. -/
def emptyKeyRegistry : String → RegistryResponse :=
  fun _ => { status_code := 200, versions := [("", { dependencies := some [] })] }

/-- A live registry answering 404 with no body for every package. -/
def notFoundRegistry : String → RegistryResponse :=
  fun _ => { status_code := 404, versions := [] }

/-- A live registry answering 200 with an empty versions mapping. -/
def noVersionsRegistry : String → RegistryResponse :=
  fun _ => { status_code := 200, versions := [] }

/-- A live registry carrying two ordinary versions. -/
def twoVersionRegistry : String → RegistryResponse :=
  fun _ =>
    { status_code := 200
      versions := [("1.0", { dependencies := some [("left-pad", "^1.0")] }),
                   ("2.0", { dependencies := some [] })] }

/-! ### Basic lemmas about the association-list operations -/

theorem lookupKey_eq_none_iff {α : Type} (l : List (String × α)) (key : String) :
    lookupKey l key = none ↔ key ∉ keysOf l := by
  induction l with
  | nil => simp [lookupKey, keysOf]
  | cons kv rest ih =>
    obtain ⟨k, v⟩ := kv
    by_cases h : k = key
    · subst h; simp [lookupKey, keysOf]
    · simp [lookupKey, keysOf, h, Ne.symm h] at ih ⊢
      exact ih

@[simp] theorem keysOf_nil {α : Type} : keysOf ([] : List (String × α)) = [] :=
  rfl

@[simp] theorem keysOf_cons {α : Type} (k : String) (v : α)
    (rest : List (String × α)) :
    keysOf ((k, v) :: rest) = k :: keysOf rest := rfl

theorem keysOf_setKey_of_not_mem {α : Type} (key : String) (v : α)
    (l : List (String × α)) :
    key ∉ keysOf l → keysOf (setKey l key v) = keysOf l ++ [key] := by
  induction l with
  | nil => intro _; simp [setKey]
  | cons kv rest ih =>
    obtain ⟨k, w⟩ := kv
    intro h
    have hk : ¬ k = key := fun hk => h (by simp; exact Or.inl hk.symm)
    have hrest : key ∉ keysOf rest := fun hr => h (by simp; exact Or.inr hr)
    simp only [setKey, if_neg hk, keysOf_cons, List.cons_append,
      List.cons.injEq, true_and]
    exact ih hrest

/-! ### Unfolding lemmas for the traversal, one per branch of the source -/

theorem build_depth_exceeded (mode : Mode) (max_depth : Nat)
    (package_name version : String) (depth : Nat) (path : List String)
    (st : AnalyzerState) (h : depth > max_depth) :
    build_dependency_graph mode max_depth package_name version depth path st =
      Except.ok st := by
  rw [build_dependency_graph.eq_def, dif_pos h]

theorem build_cycle (mode : Mode) (max_depth : Nat)
    (package_name version : String) (depth : Nat) (path : List String)
    (st : AnalyzerState) (h1 : depth ≤ max_depth) (h2 : package_name ∈ path) :
    build_dependency_graph mode max_depth package_name version depth path st =
      Except.ok
        { st with cycle_log := st.cycle_log ++ [path ++ [package_name]] } := by
  rw [build_dependency_graph.eq_def, dif_neg (by omega), if_pos h2]

theorem build_fetch_error (mode : Mode) (max_depth : Nat)
    (package_name version : String) (depth : Nat) (path : List String)
    (st : AnalyzerState) (e : String) (h1 : depth ≤ max_depth)
    (h2 : package_name ∉ path)
    (h3 : get_direct_dependencies mode package_name version = Except.error e) :
    build_dependency_graph mode max_depth package_name version depth path st =
      Except.error e := by
  rw [build_dependency_graph.eq_def, dif_neg (by omega), if_neg h2, h3]

theorem build_fetch_ok (mode : Mode) (max_depth : Nat)
    (package_name version : String) (depth : Nat) (path : List String)
    (st : AnalyzerState) (dependencies : List (String × String))
    (h1 : depth ≤ max_depth) (h2 : package_name ∉ path)
    (h3 : get_direct_dependencies mode package_name version =
      Except.ok dependencies) :
    build_dependency_graph mode max_depth package_name version depth path st =
      build_children mode max_depth dependencies (depth + 1)
        (path ++ [package_name])
        { dependency_graph := setKey st.dependency_graph package_name dependencies
          fetch_log := st.fetch_log ++ [package_name]
          cycle_log := st.cycle_log } := by
  rw [build_dependency_graph.eq_def, dif_neg (by omega), if_neg h2, h3]

theorem build_children_nil (mode : Mode) (max_depth : Nat) (depth : Nat)
    (path : List String) (st : AnalyzerState) :
    build_children mode max_depth [] depth path st = Except.ok st := by
  rw [build_children.eq_def]

theorem build_children_cons_mem (mode : Mode) (max_depth : Nat)
    (dep_name dep_version : String) (rest : List (String × String))
    (depth : Nat) (path : List String) (st : AnalyzerState)
    (h : dep_name ∈ graphKeys st) :
    build_children mode max_depth ((dep_name, dep_version) :: rest) depth path
        st =
      build_children mode max_depth rest depth path st := by
  rw [build_children.eq_def]
  simp [h]

theorem build_children_cons_err (mode : Mode) (max_depth : Nat)
    (dep_name dep_version : String) (rest : List (String × String))
    (depth : Nat) (path : List String) (st : AnalyzerState) (e : String)
    (h : dep_name ∉ graphKeys st)
    (hb : build_dependency_graph mode max_depth dep_name dep_version depth path
      st = Except.error e) :
    build_children mode max_depth ((dep_name, dep_version) :: rest) depth path
        st = Except.error e := by
  rw [build_children.eq_def]
  simp [h, hb]

theorem build_children_cons_ok (mode : Mode) (max_depth : Nat)
    (dep_name dep_version : String) (rest : List (String × String))
    (depth : Nat) (path : List String) (st st2 : AnalyzerState)
    (h : dep_name ∉ graphKeys st)
    (hb : build_dependency_graph mode max_depth dep_name dep_version depth path
      st = Except.ok st2) :
    build_children mode max_depth ((dep_name, dep_version) :: rest) depth path
        st =
      build_children mode max_depth rest depth path st2 := by
  rw [build_children.eq_def]
  simp [h, hb]

/-- Children at a depth beyond the guard leave the state untouched: every
recursive call returns immediately. -/
theorem build_children_exceeded (mode : Mode) (max_depth : Nat)
    (deps : List (String × String)) (depth : Nat) (path : List String)
    (st : AnalyzerState) (h : depth > max_depth) :
    build_children mode max_depth deps depth path st = Except.ok st := by
  induction deps generalizing st with
  | nil => exact build_children_nil ..
  | cons head rest ih =>
    obtain ⟨dn, dv⟩ := head
    by_cases hmem : dn ∈ graphKeys st
    · rw [build_children_cons_mem _ _ _ _ _ _ _ _ hmem]
      exact ih st
    · rw [build_children_cons_ok _ _ _ _ _ _ _ _ _ hmem
        (build_depth_exceeded _ _ _ _ _ _ _ h)]
      exact ih st

/-! ### The fuel-indexed engine computes the traversal -/

theorem runChildren_eq_build_children (mode : Mode) (max_depth : Nat)
    (depth : Nat) (path : List String)
    (step : String → String → AnalyzerState →
      Option (Except String AnalyzerState))
    (hstep : ∀ n v s, step n v s =
      some (build_dependency_graph mode max_depth n v depth path s))
    (deps : List (String × String)) (st : AnalyzerState) :
    runChildren step deps st =
      some (build_children mode max_depth deps depth path st) := by
  induction deps generalizing st with
  | nil => rw [build_children_nil, runChildren]
  | cons head rest ih =>
    obtain ⟨dn, dv⟩ := head
    rw [runChildren]
    by_cases hmem : dn ∈ graphKeys st
    · rw [if_pos hmem, build_children_cons_mem _ _ _ _ _ _ _ _ hmem]
      exact ih st
    · rw [if_neg hmem, hstep]
      cases hb : build_dependency_graph mode max_depth dn dv depth path st with
      | error e => rw [build_children_cons_err _ _ _ _ _ _ _ _ _ hmem hb]
      | ok st2 =>
        rw [build_children_cons_ok _ _ _ _ _ _ _ _ _ hmem hb]
        exact ih st2

/-- `max_depth + 1 - depth` units of fuel already suffice: the fuel-indexed
engine never hits its bound and computes exactly `build_dependency_graph`.
In particular the recursion of the source is cut by the depth guard alone:
from a node at depth `d` at most `max_depth + 1 - d` further levels of
descent happen, regardless of registry contents and of the cycle guard. -/
theorem buildFuel_eq_build (mode : Mode) (max_depth : Nat) (fuel : Nat)
    (package_name version : String) (depth : Nat) (path : List String)
    (st : AnalyzerState) (hfuel : max_depth + 1 - depth ≤ fuel) :
    buildFuel mode max_depth fuel package_name version depth path st =
      some (build_dependency_graph mode max_depth package_name version depth
        path st) := by
  induction fuel generalizing package_name version depth path st with
  | zero =>
    have hd : depth > max_depth := by omega
    rw [buildFuel, if_pos hd, build_depth_exceeded _ _ _ _ _ _ _ hd]
  | succ fuel' ih =>
    by_cases hd : depth > max_depth
    · rw [buildFuel, if_pos hd, build_depth_exceeded _ _ _ _ _ _ _ hd]
    · rw [buildFuel, if_neg hd]
      by_cases hcyc : package_name ∈ path
      · rw [if_pos hcyc, build_cycle _ _ _ _ _ _ _ (by omega) hcyc]
      · rw [if_neg hcyc]
        cases hdep : get_direct_dependencies mode package_name version with
        | error e =>
          rw [build_fetch_error _ _ _ _ _ _ _ _ (by omega) hcyc hdep]
        | ok dependencies =>
          rw [build_fetch_ok _ _ _ _ _ _ _ _ (by omega) hcyc hdep]
          exact runChildren_eq_build_children mode max_depth (depth + 1)
            (path ++ [package_name]) _
            (fun n v s => ih n v (depth + 1) (path ++ [package_name]) s
              (by omega))
            dependencies _

/-! ### Evaluating concrete runs through the fuel-indexed engine -/

theorem build_eq_of_buildFuel (mode : Mode) (max_depth fuel : Nat)
    (package_name version : String) (depth : Nat) (path : List String)
    (st : AnalyzerState) (r : Except String AnalyzerState)
    (hfuel : max_depth + 1 - depth ≤ fuel)
    (h : buildFuel mode max_depth fuel package_name version depth path st =
      some r) :
    build_dependency_graph mode max_depth package_name version depth path st =
      r := by
  have hb := buildFuel_eq_build mode max_depth fuel package_name version depth
    path st hfuel
  rw [h] at hb
  exact (Option.some.inj hb).symm

theorem run_analysis_eq_of_buildFuel (mode : Mode) (max_depth : Nat)
    (package_name version : String) (r : Except String AnalyzerState)
    (h : buildFuel mode max_depth (max_depth + 1) package_name version 0 []
      initialState = some r) :
    run_analysis mode max_depth package_name version = r := by
  rw [run_analysis]
  exact build_eq_of_buildFuel mode max_depth (max_depth + 1) package_name
    version 0 [] initialState r (by omega) h

/-! ### The no-duplicate-fetch invariant -/

theorem runChildren_preserves
    (step : String → String → AnalyzerState →
      Option (Except String AnalyzerState))
    (hstep : ∀ n v s s', step n v s = some (Except.ok s') →
      n ∉ graphKeys s → graphKeys s = s.fetch_log → s.fetch_log.Nodup →
      graphKeys s' = s'.fetch_log ∧ s'.fetch_log.Nodup)
    (deps : List (String × String)) :
    ∀ st st', runChildren step deps st = some (Except.ok st') →
      graphKeys st = st.fetch_log → st.fetch_log.Nodup →
      graphKeys st' = st'.fetch_log ∧ st'.fetch_log.Nodup := by
  induction deps with
  | nil =>
    intro st st' h h1 h2
    rw [runChildren] at h
    simp only [Option.some.injEq, Except.ok.injEq] at h
    subst h
    exact ⟨h1, h2⟩
  | cons head rest ih =>
    obtain ⟨dn, dv⟩ := head
    intro st st' h h1 h2
    rw [runChildren] at h
    by_cases hmem : dn ∈ graphKeys st
    · rw [if_pos hmem] at h
      exact ih st st' h h1 h2
    · rw [if_neg hmem] at h
      cases hs : step dn dv st with
      | none => rw [hs] at h; exact absurd h (by simp)
      | some r =>
        cases r with
        | error e => rw [hs] at h; exact absurd h (by simp)
        | ok st2 =>
          rw [hs] at h
          have hinv2 := hstep dn dv st st2 hs hmem h1 h2
          exact ih st2 st' h hinv2.1 hinv2.2

theorem buildFuel_preserves (mode : Mode) (max_depth : Nat) (fuel : Nat) :
    ∀ (package_name version : String) (depth : Nat) (path : List String)
      (st st' : AnalyzerState),
      buildFuel mode max_depth fuel package_name version depth path st =
        some (Except.ok st') →
      package_name ∉ graphKeys st → graphKeys st = st.fetch_log →
      st.fetch_log.Nodup →
      graphKeys st' = st'.fetch_log ∧ st'.fetch_log.Nodup := by
  induction fuel with
  | zero =>
    intro name ver depth path st st' h hn h1 h2
    rw [buildFuel] at h
    by_cases hd : depth > max_depth
    · rw [if_pos hd] at h
      simp only [Option.some.injEq, Except.ok.injEq] at h
      subst h
      exact ⟨h1, h2⟩
    · rw [if_neg hd] at h
      by_cases hcyc : name ∈ path
      · rw [if_pos hcyc] at h
        simp only [Option.some.injEq, Except.ok.injEq] at h
        subst h
        exact ⟨h1, h2⟩
      · rw [if_neg hcyc] at h
        cases hdep : get_direct_dependencies mode name ver with
        | error e => rw [hdep] at h; exact absurd h (by simp)
        | ok deps => rw [hdep] at h; exact absurd h (by simp)
  | succ fuel' ih =>
    intro name ver depth path st st' h hn h1 h2
    rw [buildFuel] at h
    by_cases hd : depth > max_depth
    · rw [if_pos hd] at h
      simp only [Option.some.injEq, Except.ok.injEq] at h
      subst h
      exact ⟨h1, h2⟩
    · rw [if_neg hd] at h
      by_cases hcyc : name ∈ path
      · rw [if_pos hcyc] at h
        simp only [Option.some.injEq, Except.ok.injEq] at h
        subst h
        exact ⟨h1, h2⟩
      · rw [if_neg hcyc] at h
        cases hdep : get_direct_dependencies mode name ver with
        | error e => rw [hdep] at h; exact absurd h (by simp)
        | ok deps =>
          rw [hdep] at h
          have hnl : name ∉ st.fetch_log := h1 ▸ hn
          have hkeys : graphKeys
              { dependency_graph := setKey st.dependency_graph name deps
                fetch_log := st.fetch_log ++ [name]
                cycle_log := st.cycle_log } = graphKeys st ++ [name] :=
            keysOf_setKey_of_not_mem name deps st.dependency_graph hn
          refine runChildren_preserves _
            (fun n v s s' hs hn' h1' h2' =>
              ih n v (depth + 1) (path ++ [name]) s s' hs hn' h1' h2')
            deps _ st' h ?_ ?_
          · rw [hkeys, h1]
          · simp only [List.nodup_append, List.nodup_cons, List.not_mem_nil,
              not_false_eq_true, List.nodup_nil, and_true, true_and,
              List.disjoint_singleton]
            exact ⟨h2, hnl⟩

/-! ### The claims -/

/-- Claim C1: in every run of `build_dependency_graph` started by
`run_analysis` (empty graph, depth 0, empty path), the Package Info Source
is invoked at most once per package name — the fetch log has no
duplicates — and exactly once for every package recorded: the keys of the
final graph are exactly the fetch log, in order.  A name already recorded
as a key is never re-fetched, because the recursion only descends into a
dependency that is not yet a key of the shared graph. -/
theorem claim_C1_fetch_once (mode : Mode) (max_depth : Nat)
    (package_name version : String) (st' : AnalyzerState)
    (h : run_analysis mode max_depth package_name version = Except.ok st') :
    graphKeys st' = st'.fetch_log ∧ st'.fetch_log.Nodup := by
  rw [run_analysis] at h
  have hb := buildFuel_eq_build mode max_depth (max_depth + 1) package_name
    version 0 [] initialState (by omega)
  rw [h] at hb
  exact buildFuel_preserves mode max_depth (max_depth + 1) package_name
    version 0 [] initialState st' hb (by simp [graphKeys, initialState])
    rfl List.nodup_nil

/-- Witness for C1: the end-to-end diamond fixture, where B is reachable
from A both directly and through C, fetches each of A, B, C once. -/
theorem claim_C1_witness :
    graphKeys ⟨[("A", [("B", "1.0"), ("C", "1.0")]), ("B", []),
        ("C", [("B", "1.0")])], ["A", "B", "C"], []⟩ =
      (⟨[("A", [("B", "1.0"), ("C", "1.0")]), ("B", []),
        ("C", [("B", "1.0")])], ["A", "B", "C"], []⟩ :
          AnalyzerState).fetch_log ∧
    (⟨[("A", [("B", "1.0"), ("C", "1.0")]), ("B", []),
        ("C", [("B", "1.0")])], ["A", "B", "C"], []⟩ :
          AnalyzerState).fetch_log.Nodup :=
  claim_C1_fetch_once e2eMode 5 "A" "1.0" _
    (run_analysis_eq_of_buildFuel e2eMode 5 "A" "1.0" _ (by decide))

/-- Claim C2: a call with `depth > max_depth` returns at once, leaving the
state untouched (no fetch, no new graph key, no cycle report); a call at
exactly `depth = max_depth` (that passes the cycle guard and whose fetch
succeeds) still fetches and records its node, and only its children — all
at depth `max_depth + 1` — are cut off, so the state changes by exactly
that one record. -/
theorem claim_C2_depth_guard :
    (∀ (mode : Mode) (max_depth : Nat) (package_name version : String)
      (depth : Nat) (path : List String) (st : AnalyzerState),
      depth > max_depth →
      build_dependency_graph mode max_depth package_name version depth path
        st = Except.ok st) ∧
    (∀ (mode : Mode) (max_depth : Nat) (package_name version : String)
      (path : List String) (st : AnalyzerState)
      (dependencies : List (String × String)),
      package_name ∉ path →
      get_direct_dependencies mode package_name version =
        Except.ok dependencies →
      build_dependency_graph mode max_depth package_name version max_depth
        path st =
        Except.ok
          { dependency_graph :=
              setKey st.dependency_graph package_name dependencies
            fetch_log := st.fetch_log ++ [package_name]
            cycle_log := st.cycle_log }) := by
  constructor
  · intro mode max_depth package_name version depth path st h
    exact build_depth_exceeded mode max_depth package_name version depth path
      st h
  · intro mode max_depth package_name version path st dependencies h2 h3
    rw [build_fetch_ok mode max_depth package_name version max_depth path st
      dependencies le_rfl h2 h3]
    exact build_children_exceeded mode max_depth dependencies (max_depth + 1)
      (path ++ [package_name]) _ (by omega)

/-- Witness for C2: a call one past the bound leaves the state unchanged,
and a call exactly at the bound (here B at depth 1 with `max_depth = 1` in
the chain fixture) records B but cuts off its child C. -/
theorem claim_C2_witness :
    build_dependency_graph chainMode 0 "A" "1.0" 1 [] initialState =
      Except.ok initialState ∧
    build_dependency_graph chainMode 1 "B" "1.0" 1 ["A"] initialState =
      Except.ok ⟨[("B", [("C", "1.0")])], ["B"], []⟩ :=
  ⟨claim_C2_depth_guard.1 chainMode 0 "A" "1.0" 1 [] initialState (by decide),
   claim_C2_depth_guard.2 chainMode 1 "B" "1.0" ["A"] initialState
     [("C", "1.0")] (by decide) (by decide)⟩

/-- Claim C9: the traversal terminates for every configuration and
registry, with recursion depth bounded by the depth guard alone: the
fuel-indexed engine, which cuts the run after `fuel` levels of recursive
descent regardless of registry contents, already never hits its bound with
`max_depth + 1 - depth` units of fuel — from the root at depth 0,
`max_depth + 1` — and computes exactly `build_dependency_graph` (itself a
total function). -/
theorem claim_C9_termination (mode : Mode) (max_depth fuel : Nat)
    (package_name version : String) (depth : Nat) (path : List String)
    (st : AnalyzerState) (hfuel : max_depth + 1 - depth ≤ fuel) :
    buildFuel mode max_depth fuel package_name version depth path st =
      some (build_dependency_graph mode max_depth package_name version depth
        path st) :=
  buildFuel_eq_build mode max_depth fuel package_name version depth path st
    hfuel

/-- Witness for C9: in the cyclic fixture with `max_depth = 3`, four units
of fuel suffice from the root. -/
theorem claim_C9_witness :
    buildFuel cycleMode 3 4 "A" "1.0" 0 [] initialState =
      some (build_dependency_graph cycleMode 3 "A" "1.0" 0 [] initialState) :=
  claim_C9_termination cycleMode 3 4 "A" "1.0" 0 [] initialState (by decide)

/-- Counterexample to claim C3: in the chain A → B → C → D with
`max_depth = 1`, the run records only A and B — C is NOT a key of the
final graph, contrary to the claim that A, B and C are recorded. -/
theorem claim_C3_counterexample :
    run_analysis chainMode 1 "A" "1.0" =
      Except.ok ⟨[("A", [("B", "1.0")]), ("B", [("C", "1.0")])],
        ["A", "B"], []⟩ ∧
    "C" ∉ graphKeys ⟨[("A", [("B", "1.0")]), ("B", [("C", "1.0")])],
        ["A", "B"], []⟩ :=
  ⟨run_analysis_eq_of_buildFuel chainMode 1 "A" "1.0" _ (by decide),
   by decide⟩

/-- Claim C3 as amended: with `max_depth = 1` the chain A → B → C → D
records exactly A and B (nodes visited at depths 0 and 1); C, first reached
at depth 2, fails the strictly-greater depth test (`2 > 1`) and is cut
together with everything below it, so neither C nor D becomes a key. -/
theorem claim_C3_amended :
    run_analysis chainMode 1 "A" "1.0" =
      Except.ok ⟨[("A", [("B", "1.0")]), ("B", [("C", "1.0")])],
        ["A", "B"], []⟩ ∧
    graphKeys ⟨[("A", [("B", "1.0")]), ("B", [("C", "1.0")])],
        ["A", "B"], []⟩ = ["A", "B"] :=
  ⟨run_analysis_eq_of_buildFuel chainMode 1 "A" "1.0" _ (by decide),
   by decide⟩

/-- Counterexample to claim C4: traversing the registry where A depends on
B and B depends on A records A and B and terminates, but the cycle log of
the final state is empty — no chain `A -> B -> A` is ever reported, because
B's dependency A is already a key of the shared graph and the memoization
guard skips it before the cycle guard of a recursive call could see it. -/
theorem claim_C4_counterexample :
    run_analysis cycleMode 5 "A" "1.0" =
      Except.ok ⟨[("A", [("B", "1.0")]), ("B", [("A", "1.0")])],
        ["A", "B"], []⟩ ∧
    (⟨[("A", [("B", "1.0")]), ("B", [("A", "1.0")])], ["A", "B"], []⟩ :
      AnalyzerState).cycle_log = [] :=
  ⟨run_analysis_eq_of_buildFuel cycleMode 5 "A" "1.0" _ (by decide), rfl⟩

/-- Claim C4 as amended: a call whose package name already occurs in the
ancestor path — provided it passes the depth guard, which runs first —
appends the cycle report `path ++ [name]` (ancestor chain plus repeated
name, in order) and returns without fetching and without recording; the
path argument is extended functionally per recursive call, so cycle
detection is path-relative.  For the registry where A and B depend on each
other, traversing from A records exactly A and B and terminates, but
reports no cycle: B's dependency A is already a key of the graph, so the
memoization guard prunes it before any call with A in its path is made. -/
theorem claim_C4_amended :
    (∀ (mode : Mode) (max_depth : Nat) (package_name version : String)
      (depth : Nat) (path : List String) (st : AnalyzerState),
      depth ≤ max_depth → package_name ∈ path →
      build_dependency_graph mode max_depth package_name version depth path
        st =
        Except.ok
          { st with cycle_log := st.cycle_log ++ [path ++ [package_name]] }) ∧
    run_analysis cycleMode 5 "A" "1.0" =
      Except.ok ⟨[("A", [("B", "1.0")]), ("B", [("A", "1.0")])],
        ["A", "B"], []⟩ :=
  ⟨fun mode max_depth package_name version depth path st h1 h2 =>
    build_cycle mode max_depth package_name version depth path st h1 h2,
   run_analysis_eq_of_buildFuel cycleMode 5 "A" "1.0" _ (by decide)⟩

/-- Witness for C4 (amended): a call for A at depth 1 with ancestor path
`[X, A]` reports the chain `X -> A -> A` and leaves graph and fetch log
untouched. -/
theorem claim_C4_witness :
    build_dependency_graph (Mode.test []) 3 "A" "1.0" 1 ["X", "A"]
      initialState = Except.ok ⟨[], [], [["X", "A", "A"]]⟩ ∧
    run_analysis cycleMode 5 "A" "1.0" =
      Except.ok ⟨[("A", [("B", "1.0")]), ("B", [("A", "1.0")])],
        ["A", "B"], []⟩ :=
  ⟨claim_C4_amended.1 (Mode.test []) 3 "A" "1.0" 1 ["X", "A"] initialState
    (by decide) (by decide),
   claim_C4_amended.2⟩

/-- Counterexample to claim C5: a live package whose response is HTTP 200
with the non-empty versions mapping `{"": {...}}`: the requested version
"1.0" is absent, yet `get_package_info` raises the resolution error instead
of returning the first entry — `if first_version:` is false on the empty
string. -/
theorem claim_C5_counterexample :
    get_package_info (Mode.live emptyKeyRegistry) "left-pad" "1.0" =
      Except.error (resolutionMsg "left-pad") ∧
    (emptyKeyRegistry "left-pad").versions ≠ [] :=
  ⟨by decide, by decide⟩

/-- Claim C5 as amended: in live mode, for a package whose lookup returns
HTTP 200 with a non-empty versions mapping: if the requested version is a
key of the mapping, that entry is returned; otherwise the first entry is
returned provided the first version key is a non-empty string, and when
the first version key is the empty string (falsy in Python) the call
instead raises the resolution error naming the package. -/
theorem claim_C5_amended :
    (∀ (respond : String → RegistryResponse) (p version : String)
      (info : PackageMetadata),
      (respond p).status_code = 200 →
      lookupKey (respond p).versions version = some info →
      get_package_info (Mode.live respond) p version = Except.ok info) ∧
    (∀ (respond : String → RegistryResponse) (p version : String)
      (first_version : String) (info0 : PackageMetadata)
      (rest : List (String × PackageMetadata)),
      (respond p).status_code = 200 →
      (respond p).versions = (first_version, info0) :: rest →
      lookupKey (respond p).versions version = none →
      first_version ≠ "" →
      get_package_info (Mode.live respond) p version = Except.ok info0) ∧
    (∀ (respond : String → RegistryResponse) (p version : String)
      (info0 : PackageMetadata) (rest : List (String × PackageMetadata)),
      (respond p).status_code = 200 →
      (respond p).versions = ("", info0) :: rest →
      lookupKey (respond p).versions version = none →
      get_package_info (Mode.live respond) p version =
        Except.error (resolutionMsg p)) := by
  refine ⟨?_, ?_, ?_⟩
  · intro respond p version info h200 hlook
    simp [get_package_info, h200, hlook]
  · intro respond p version first_version info0 rest h200 hv hlook hfv
    rw [hv] at hlook
    simp [get_package_info, h200, hv, hlook, hfv]
  · intro respond p version info0 rest h200 hv hlook
    rw [hv] at hlook
    simp [get_package_info, h200, hv, hlook]

/-- Witness for C5 (amended): with a 200-response carrying versions 1.0
and 2.0, requesting 2.0 returns its entry, requesting the absent 9.9 falls
back to the 1.0 entry, and with the empty-string-keyed registry the absent
9.9 raises the resolution error. -/
theorem claim_C5_witness :
    get_package_info (Mode.live twoVersionRegistry) "P" "2.0" =
      Except.ok { dependencies := some [] } ∧
    get_package_info (Mode.live twoVersionRegistry) "P" "9.9" =
      Except.ok { dependencies := some [("left-pad", "^1.0")] } ∧
    get_package_info (Mode.live emptyKeyRegistry) "P" "9.9" =
      Except.error (resolutionMsg "P") :=
  ⟨claim_C5_amended.1 twoVersionRegistry "P" "2.0" _ (by decide) (by decide),
   claim_C5_amended.2.1 twoVersionRegistry "P" "9.9" "1.0"
     { dependencies := some [("left-pad", "^1.0")] }
     [("2.0", { dependencies := some [] })] (by decide) (by decide)
     (by decide) (by decide),
   claim_C5_amended.2.2 emptyKeyRegistry "P" "9.9"
     { dependencies := some [] } [] (by decide) (by decide) (by decide)⟩

/-- Claim C6: in live mode a non-200 status, or a 200 status with an empty
versions mapping, makes `get_package_info` fail with the resolution error
naming the package; the traversal does not catch this error — a node whose
fetch fails aborts `build_dependency_graph` with that error, and from the
root the whole `run_analysis` call returns it instead of partial results. -/
theorem claim_C6_resolution_error :
    (∀ (respond : String → RegistryResponse) (p version : String),
      (respond p).status_code ≠ 200 →
      get_package_info (Mode.live respond) p version =
        Except.error (resolutionMsg p)) ∧
    (∀ (respond : String → RegistryResponse) (p version : String),
      (respond p).status_code = 200 → (respond p).versions = [] →
      get_package_info (Mode.live respond) p version =
        Except.error (resolutionMsg p)) ∧
    (∀ (mode : Mode) (max_depth : Nat) (package_name version : String)
      (depth : Nat) (path : List String) (st : AnalyzerState) (e : String),
      depth ≤ max_depth → package_name ∉ path →
      get_direct_dependencies mode package_name version = Except.error e →
      build_dependency_graph mode max_depth package_name version depth path
        st = Except.error e) ∧
    (∀ (mode : Mode) (max_depth : Nat) (package_name version : String)
      (e : String),
      get_direct_dependencies mode package_name version = Except.error e →
      run_analysis mode max_depth package_name version = Except.error e) := by
  refine ⟨?_, ?_, ?_, ?_⟩
  · intro respond p version h200
    simp [get_package_info, h200]
  · intro respond p version h200 hv
    simp [get_package_info, h200, hv, lookupKey]
  · intro mode max_depth package_name version depth path st e h1 h2 h3
    exact build_fetch_error mode max_depth package_name version depth path st
      e h1 h2 h3
  · intro mode max_depth package_name version e h
    rw [run_analysis]
    exact build_fetch_error mode max_depth package_name version 0 []
      initialState e (Nat.zero_le _) (List.not_mem_nil _) h

/-- Witness for C6: a 404 registry and a 200-but-empty registry both
produce the resolution error, and with the 404 registry the whole
`run_analysis` call returns that error. -/
theorem claim_C6_witness :
    get_package_info (Mode.live notFoundRegistry) "left-pad" "1.0" =
      Except.error (resolutionMsg "left-pad") ∧
    get_package_info (Mode.live noVersionsRegistry) "left-pad" "1.0" =
      Except.error (resolutionMsg "left-pad") ∧
    build_dependency_graph (Mode.live notFoundRegistry) 3 "left-pad" "1.0" 1
      ["app"] initialState = Except.error (resolutionMsg "left-pad") ∧
    run_analysis (Mode.live notFoundRegistry) 3 "left-pad" "1.0" =
      Except.error (resolutionMsg "left-pad") :=
  ⟨claim_C6_resolution_error.1 notFoundRegistry "left-pad" "1.0" (by decide),
   claim_C6_resolution_error.2.1 noVersionsRegistry "left-pad" "1.0"
     (by decide) (by decide),
   claim_C6_resolution_error.2.2.1 (Mode.live notFoundRegistry) 3 "left-pad"
     "1.0" 1 ["app"] initialState (resolutionMsg "left-pad") (by decide)
     (by decide) (by decide),
   claim_C6_resolution_error.2.2.2 (Mode.live notFoundRegistry) 3 "left-pad"
     "1.0" (resolutionMsg "left-pad") (by decide)⟩

/-- Claim C7: in test mode a package name absent from the fixture yields
the empty metadata record and hence an empty direct-dependency mapping,
with no error; a traversal node for such a package (that passes both
guards) only records itself with an empty mapping — the dependency loop
runs over an empty list, so no recursive child call happens and nothing
else changes. -/
theorem claim_C7_missing_test_package :
    (∀ (fixture : List (String × PackageMetadata))
      (package_name version : String),
      lookupKey fixture package_name = none →
      get_package_info (Mode.test fixture) package_name version =
        Except.ok { dependencies := none } ∧
      get_direct_dependencies (Mode.test fixture) package_name version =
        Except.ok []) ∧
    (∀ (fixture : List (String × PackageMetadata)) (max_depth : Nat)
      (package_name version : String) (depth : Nat) (path : List String)
      (st : AnalyzerState),
      lookupKey fixture package_name = none →
      depth ≤ max_depth → package_name ∉ path →
      build_dependency_graph (Mode.test fixture) max_depth package_name
        version depth path st =
        Except.ok
          { st with
            dependency_graph := setKey st.dependency_graph package_name []
            fetch_log := st.fetch_log ++ [package_name] }) := by
  constructor
  · intro fixture package_name version hlook
    constructor
    · simp [get_package_info, hlook]
    · simp [get_direct_dependencies, get_package_info, hlook, Except.map]
  · intro fixture max_depth package_name version depth path st hlook h1 h2
    have hdeps : get_direct_dependencies (Mode.test fixture) package_name
        version = Except.ok [] := by
      simp [get_direct_dependencies, get_package_info, hlook, Except.map]
    rw [build_fetch_ok (Mode.test fixture) max_depth package_name version
      depth path st [] h1 h2 hdeps]
    exact build_children_nil ..

/-- Witness for C7: the package "ghost" is absent from the end-to-end
fixture; its lookup yields the empty record, and a traversal node for it
only records `ghost ↦ {}`. -/
theorem claim_C7_witness :
    (get_package_info e2eMode "ghost" "1.0" =
        Except.ok { dependencies := none } ∧
      get_direct_dependencies e2eMode "ghost" "1.0" = Except.ok []) ∧
    build_dependency_graph e2eMode 5 "ghost" "1.0" 1 ["A"] initialState =
      Except.ok ⟨[("ghost", [])], ["ghost"], []⟩ :=
  ⟨claim_C7_missing_test_package.1 e2eFixture "ghost" "1.0" (by decide),
   claim_C7_missing_test_package.2 e2eFixture 5 "ghost" "1.0" 1 ["A"]
     initialState (by decide) (by decide) (by decide)⟩

/-- Claim C8: the end-to-end scenario — fixture A ↦ {B, C}, B ↦ {},
C ↦ {B}, root A@1.0, `max_depth = 5` — produces exactly the graph
`{A: {B: 1.0, C: 1.0}, B: {}, C: {B: 1.0}}` with keys in discovery order
A, B, C, and B is fetched exactly once although reachable both from A and
from C: the fetch log is `[A, B, C]`, in which B occurs once. -/
theorem claim_C8_e2e :
    run_analysis e2eMode 5 "A" "1.0" =
      Except.ok ⟨[("A", [("B", "1.0"), ("C", "1.0")]), ("B", []),
        ("C", [("B", "1.0")])], ["A", "B", "C"], []⟩ ∧
    (⟨[("A", [("B", "1.0"), ("C", "1.0")]), ("B", []),
        ("C", [("B", "1.0")])], ["A", "B", "C"], []⟩ :
      AnalyzerState).fetch_log.count "B" = 1 :=
  ⟨run_analysis_eq_of_buildFuel e2eMode 5 "A" "1.0" _ (by decide),
   by decide⟩

/-- Claim C10: in test mode a package absent from the fixture is still
recorded as a graph key mapped to the empty dependency mapping; in
particular an analysis whose root is missing from the fixture ends with
the graph containing exactly that root, mapped to the empty mapping. -/
theorem claim_C10_missing_root_recorded
    (fixture : List (String × PackageMetadata)) (max_depth : Nat)
    (package_name version : String)
    (hlook : lookupKey fixture package_name = none) :
    run_analysis (Mode.test fixture) max_depth package_name version =
      Except.ok ⟨[(package_name, [])], [package_name], []⟩ := by
  have hdeps : get_direct_dependencies (Mode.test fixture) package_name
      version = Except.ok [] := by
    simp [get_direct_dependencies, get_package_info, hlook, Except.map]
  rw [run_analysis, build_fetch_ok (Mode.test fixture) max_depth package_name
    version 0 [] initialState [] (Nat.zero_le _) (List.not_mem_nil _) hdeps]
  exact build_children_nil ..

/-- Witness for C10: analysing the root "ghost" against the empty fixture
returns the one-entry graph `{ghost: {}}`. -/
theorem claim_C10_witness :
    run_analysis (Mode.test []) 4 "ghost" "1.0" =
      Except.ok ⟨[("ghost", [])], ["ghost"], []⟩ :=
  claim_C10_missing_root_recorded [] 4 "ghost" "1.0" (by decide)
